import Mathlib

/-!
# Gitea driver of go-scm: `New` and `wrapper.do`

A shallow embedding of `scm/driver/gitea/gitea.go`.

The file has two functions of interest:

* `New`, which parses the endpoint, makes its path end in a slash and wires
  the services onto the client;
* `wrapper.do`, which builds a request, hands it to `Client.Do`, classifies
  the status and fills the output destination.

Everything the file imports (`net/url`, `encoding/json`, `io`, `net/http`,
the Gitea SDK and `scm.Client.Do`) is outside the source file, so each of
these collaborators is a field of an environment record and the theorems hold
for every environment.  Effects that Go performs on the outside world (the
call of the transport, reads of the response body, the deferred `Close`) are
recorded in an event trace, in program order.
-/

namespace Gitea

/-! ## Go values -/

/-- A byte, as in Go's `byte`. -/
abbrev Byte := UInt8

/-- A byte sequence (`[]byte`, or the content of a stream). -/
abbrev Bytes := List Byte

/-- A non-nil Go `error`; a nil error is `none : Option GoError`. -/
structure GoError where
  msg : String
deriving DecidableEq, Repr

/-- The function `errors.New`: an error that carries the given text. -/
def errorsNew (text : String) : GoError := ⟨text⟩

/-- The function `strings.HasSuffix`: does `s` end with `suffix`. -/
def stringsHasSuffix (s suffix : String) : Bool :=
  suffix.data.isSuffixOf s.data

/-! ## `New` -/

/-- The fields of `url.URL` (Go's `net/url`). -/
structure URL where
  Scheme : String
  Opaque : String
  User : Option (String × Option String)
  Host : String
  Path : String
  RawPath : String
  ForceQuery : Bool
  RawQuery : String
  Fragment : String
  RawFragment : String
deriving DecidableEq, Repr

/-- The values of `scm.Driver` that this file can leave in a client:
the zero value and `scm.DriverGitea`. -/
inductive Driver
  | DriverUnknown
  | DriverGitea
deriving DecidableEq, Repr

/-- The service implementations of the package.  In Go each of them holds a
pointer to the one `wrapper`; `pullService` holds an `issueService`. -/
inductive Service
  | contentService
  | gitService
  | issueService
  | organizationService
  | pullService (inner : Service)
  | repositoryService
  | reviewService
  | userService
  | webhookService
deriving DecidableEq, Repr

/-- The client that `New` builds: the fields of `scm.Client` that `New` sets,
together with the `GiteaClient` of the enclosing `wrapper`.  `G` is the type
of the SDK client. -/
structure Client (G : Type) where
  GiteaClient : G
  BaseURL : URL
  Driver : Driver
  Contents : Service
  Git : Service
  Issues : Service
  Organizations : Service
  PullRequests : Service
  Repositories : Service
  Reviews : Service
  Users : Service
  Webhooks : Service

/-- The collaborators of `New`: `url.Parse`, `(*url.URL).String` and
`gitea.NewClientWithHTTP` (applied to the fresh `http.Client`). -/
structure NewEnv (G : Type) where
  urlParse : String → Except GoError URL
  urlString : URL → String
  newClientWithHTTP : String → G

/-- The path step of `New`:
`if !strings.HasSuffix(base.Path, "/") { base.Path = base.Path + "/" }`. -/
def normalizeBase (base : URL) : URL :=
  if !stringsHasSuffix base.Path "/" then
    { base with Path := base.Path ++ "/" }
  else
    base

/-- The function `New`.  The result is Go's pair `(*scm.Client, error)`. -/
def New {G : Type} (env : NewEnv G) (uri : String) :
    Option (Client G) × Option GoError :=
  match env.urlParse uri with
  | .error err => (none, some err)
  | .ok base =>
    let base := normalizeBase base
    (some
      { GiteaClient := env.newClientWithHTTP (env.urlString base)
        BaseURL := base
        Driver := Driver.DriverGitea
        Contents := Service.contentService
        Git := Service.gitService
        Issues := Service.issueService
        Organizations := Service.organizationService
        PullRequests := Service.pullService Service.issueService
        Repositories := Service.repositoryService
        Reviews := Service.reviewService
        Users := Service.userService
        Webhooks := Service.webhookService },
     none)

/-! ## `wrapper.do` -/

/-- The fields of `scm.Request`.  `Header = none` is the nil map and
`Body = none` the nil reader. -/
structure Request where
  Method : String
  Path : String
  Header : Option (List (String × List String))
  Body : Option Bytes
deriving DecidableEq, Repr

/-- A response body as a reader sees it: the successive non-final results of
`Read`, then either `io.EOF` (`err = none`) or a read error. -/
structure Body where
  chunks : List Bytes
  err : Option GoError
deriving DecidableEq, Repr

/-- The bytes of a body, in order. -/
def Body.bytes (b : Body) : Bytes := b.chunks.flatten

/-- The fields of `scm.Response` that `do` looks at, and its header. -/
structure Response where
  Status : Int
  Header : List (String × List String)
  Body : Body
deriving DecidableEq, Repr

/-- The output destination `out interface{}`, by what `do` can tell of it:
nil, a value whose dynamic type implements `io.Writer`, or any other value. -/
inductive Out (W D : Type)
  | nil
  | writer (w : W)
  | value (d : D)
deriving DecidableEq, Repr

/-- The collaborators of `do`.  `C` is `context.Context`, `V` the type of
input values, `W` the state of a writer and `D` the state of a typed
destination.

* `jsonEncode v` is `json.NewEncoder(buf).Encode(v)` on a fresh buffer: the
  bytes left in the buffer and the error returned;
* `clientDo` is `scm.Client.Do`;
* `statusText` is `http.StatusText`;
* `write` is the `Write` method of the sink: new state, count, error;
* `jsonDecode body d` is `json.NewDecoder(body).Decode(d)`: the destination
  afterwards and the error returned. -/
structure Env (C V W D : Type) where
  jsonEncode : V → Bytes × Option GoError
  clientDo : C → Request → Except GoError Response
  statusText : Int → String
  write : W → Bytes → W × Nat × Option GoError
  jsonDecode : Body → D → D × Option GoError

/-- The error `io.ErrShortWrite`. -/
def ErrShortWrite : GoError := errorsNew "short write"

/-- The error that `io.Copy` reports for a `Write` with an impossible count. -/
def errInvalidWrite : GoError := errorsNew "invalid write result"

/-- What `io.Copy` leaves behind: the sink, the bytes the sink took, and the
error of the copy. -/
structure CopyResult (W : Type) where
  w : W
  written : Bytes
  err : Option GoError

/-- The loop of `io.Copy(dst, src)` (Go's `io.copyBuffer`) over the reads of
`src`: every non-empty read is written to `dst`; a count above the length of
the read is an invalid write; the copy stops at the first write error, at a
short write, or at the end of `src`, where `io.EOF` is not an error. -/
def ioCopyLoop {W : Type} (write : W → Bytes → W × Nat × Option GoError) :
    W → List Bytes → Option GoError → CopyResult W
  | w, [], er => { w := w, written := [], err := er }
  | w, buf :: rest, er =>
    if buf.length > 0 then
      match write w buf with
      | (w1, nw, ew) =>
        let bad : Bool := decide (buf.length < nw)
        let nw := if bad then 0 else nw
        let ew := if bad && ew.isNone then some errInvalidWrite else ew
        match ew with
        | some e => { w := w1, written := buf.take nw, err := some e }
        | none =>
          if buf.length ≠ nw then
            { w := w1, written := buf.take nw, err := some ErrShortWrite }
          else
            let r := ioCopyLoop write w1 rest er
            { r with written := buf.take nw ++ r.written }
    else
      ioCopyLoop write w rest er

/-- The function `io.Copy` from a response body into a sink. -/
def ioCopy {W : Type} (write : W → Bytes → W × Nat × Option GoError)
    (w : W) (src : Body) : CopyResult W :=
  ioCopyLoop write w src.chunks src.err

/-- What `do` does to the outside world, in program order. -/
inductive Event
  | encode
  | clientDo (req : Request)
  | copy (written : Bytes)
  | decode
  | close
deriving DecidableEq, Repr

/-- Does the event read the response body. -/
def Event.readsBody : Event → Bool
  | Event.copy _ => true
  | Event.decode => true
  | _ => false

/-- The outcome of `do`: Go's pair `(*scm.Response, error)`, the output
destination afterwards, and the trace of effects. -/
structure DoResult (W D : Type) where
  res : Option Response
  err : Option GoError
  out : Out W D
  trace : List Event

/-- The request that `do` builds (lines 66 to 79), with the events of building
it: without input only method and path are set; with input the encoder runs,
its error is dropped, and header and body are set. -/
def buildRequest {C V W D : Type} (env : Env C V W D) (method path : String)
    (input : Option V) : Request × List Event :=
  let req : Request := { Method := method, Path := path, Header := none, Body := none }
  match input with
  | some v =>
    let buf := (env.jsonEncode v).1
    ({ req with
        Header := some [("Content-Type", ["application/json"])]
        Body := some buf },
     [Event.encode])
  | none => (req, [])

/-- The part of `do` that runs between `defer res.Body.Close()` and the
return (lines 88 to 109). -/
def afterDo {C V W D : Type} (env : Env C V W D) (res : Response)
    (out : Out W D) : DoResult W D :=
  if res.Status > 300 then
    { res := some res, err := some (errorsNew (env.statusText res.Status)),
      out := out, trace := [] }
  else
    match out with
    | Out.nil => { res := some res, err := none, out := Out.nil, trace := [] }
    | Out.writer w =>
      let c := ioCopy env.write w res.Body
      { res := some res, err := none, out := Out.writer c.w,
        trace := [Event.copy c.written] }
    | Out.value d =>
      let r := env.jsonDecode res.Body d
      { res := some res, err := r.2, out := Out.value r.1,
        trace := [Event.decode] }

/-- The method `wrapper.do`.  The deferred `res.Body.Close()` runs when the
function returns, so its event ends the trace of every path on which the
transport gave a response. -/
def wrapper_do {C V W D : Type} (env : Env C V W D) (ctx : C)
    (method path : String) (input : Option V) (out : Out W D) : DoResult W D :=
  let b := buildRequest env method path input
  match env.clientDo ctx b.1 with
  | .error err =>
    { res := none, err := some err, out := out,
      trace := b.2 ++ [Event.clientDo b.1] }
  | .ok res =>
    let r := afterDo env res out
    { r with trace := b.2 ++ [Event.clientDo b.1] ++ r.trace ++ [Event.close] }

/-- How often the response body was closed. -/
def DoResult.closeCount {W D : Type} (r : DoResult W D) : Nat :=
  r.trace.count Event.close

/-- The request of a transport event. -/
def Event.request? : Event → Option Request
  | Event.clientDo req => some req
  | _ => none

/-- The requests handed to the transport, in order. -/
def DoResult.requests {W D : Type} (r : DoResult W D) : List Request :=
  r.trace.filterMap Event.request?

/-! ## Concrete collaborators

The theorems below hold for every environment.  The definitions of this
section give one concrete environment each, on which the scenarios of the
specification are evaluated. -/

/-- The table of `http.StatusText` (Go's `net/http`). -/
def statusTextTable : List (Int × String) :=
  [ (100, "Continue"), (101, "Switching Protocols"), (102, "Processing"),
    (103, "Early Hints"),
    (200, "OK"), (201, "Created"), (202, "Accepted"),
    (203, "Non-Authoritative Information"), (204, "No Content"),
    (205, "Reset Content"), (206, "Partial Content"), (207, "Multi-Status"),
    (208, "Already Reported"), (226, "IM Used"),
    (300, "Multiple Choices"), (301, "Moved Permanently"), (302, "Found"),
    (303, "See Other"), (304, "Not Modified"), (305, "Use Proxy"),
    (307, "Temporary Redirect"), (308, "Permanent Redirect"),
    (400, "Bad Request"), (401, "Unauthorized"), (402, "Payment Required"),
    (403, "Forbidden"), (404, "Not Found"), (405, "Method Not Allowed"),
    (406, "Not Acceptable"), (407, "Proxy Authentication Required"),
    (408, "Request Timeout"), (409, "Conflict"), (410, "Gone"),
    (411, "Length Required"), (412, "Precondition Failed"),
    (413, "Request Entity Too Large"), (414, "Request URI Too Long"),
    (415, "Unsupported Media Type"), (416, "Requested Range Not Satisfiable"),
    (417, "Expectation Failed"), (418, "I\x27m a teapot"),
    (421, "Misdirected Request"), (422, "Unprocessable Entity"),
    (423, "Locked"), (424, "Failed Dependency"), (425, "Too Early"),
    (426, "Upgrade Required"), (428, "Precondition Required"),
    (429, "Too Many Requests"), (431, "Request Header Fields Too Large"),
    (451, "Unavailable For Legal Reasons"),
    (500, "Internal Server Error"), (501, "Not Implemented"),
    (502, "Bad Gateway"), (503, "Service Unavailable"),
    (504, "Gateway Timeout"), (505, "HTTP Version Not Supported"),
    (506, "Variant Also Negotiates"), (507, "Insufficient Storage"),
    (508, "Loop Detected"), (510, "Not Extended"),
    (511, "Network Authentication Required") ]

/-- The function `http.StatusText`: the text of a known code, else `""`. -/
def httpStatusText (code : Int) : String :=
  (statusTextTable.lookup code).getD ""

/-- A byte sink.  With `room = none` it takes every byte, as a
`bytes.Buffer` does; with `room = some k` it takes `k` more bytes and fails
the write that would exceed them. -/
structure Sink where
  data : Bytes
  room : Option Nat
deriving DecidableEq, Repr

/-- The `Write` method of a `Sink`. -/
def Sink.write (s : Sink) (p : Bytes) : Sink × Nat × Option GoError :=
  match s.room with
  | none => ({ s with data := s.data ++ p }, p.length, none)
  | some k =>
    if p.length ≤ k then
      ({ data := s.data ++ p, room := some (k - p.length) }, p.length, none)
    else
      ({ data := s.data ++ p.take k, room := some 0 }, k,
        some (errorsNew "sink: no room left"))

/-- A decoder for a destination that keeps the raw text of a value (like
`json.RawMessage`): it accepts a body that was read to its end and starts
with an opening brace, and leaves the destination alone otherwise. -/
def rawDecode (body : Body) (d : Bytes) : Bytes × Option GoError :=
  match body.err with
  | some e => (d, some e)
  | none =>
    if body.bytes.head? = some 123 then (body.bytes, none)
    else (d, some (errorsNew "invalid character looking for beginning of value"))

/-- An environment whose transport answers every request with `reply`.
Input values are byte strings that encode as themselves followed by the
newline that `Encode` appends. -/
def replyEnv (reply : Except GoError Response) : Env Unit Bytes Sink Bytes where
  jsonEncode v := (v ++ [10], none)
  clientDo _ _ := reply
  statusText := httpStatusText
  write := Sink.write
  jsonDecode := rawDecode

/-- The environment `replyEnv reply` with an encoder that rejects every input
value and leaves its buffer empty. -/
def rejectEnv (reply : Except GoError Response) : Env Unit Bytes Sink Bytes :=
  { replyEnv reply with
    jsonEncode := fun _ => ([], some (errorsNew "json: unsupported value")) }

/-- A response with the given status and a body that arrives in one read. -/
def plainResponse (status : Int) (body : Bytes) : Response :=
  { Status := status, Header := [], Body := { chunks := [body], err := none } }

/-- A response with status 200 whose body gives three bytes and then fails
to read. -/
def cutResponse : Response :=
  { Status := 200, Header := [],
    Body := ⟨[[110, 111, 116]], some (errorsNew "unexpected EOF")⟩ }

/-- The bytes of the text `{"message":"not found"}`. -/
def notFoundBody : Bytes :=
  [123, 34, 109, 101, 115, 115, 97, 103, 101, 34, 58, 34, 110, 111, 116, 32,
   102, 111, 117, 110, 100, 34, 125]

/-- The bytes of the text `{"id":1}`. -/
def idBody : Bytes := [123, 34, 105, 100, 34, 58, 49, 125]

/-- The bytes of the text `not json`. -/
def notJsonBody : Bytes := [110, 111, 116, 32, 106, 115, 111, 110]

/-- A URL with a scheme, a host and a path, and nothing else. -/
def plainURL (scheme host path : String) : URL :=
  { Scheme := scheme, Opaque := "", User := none, Host := host, Path := path,
    RawPath := "", ForceQuery := false, RawQuery := "", Fragment := "",
    RawFragment := "" }

/-- A parser that knows two endpoints and gives for them what `url.Parse`
gives; every other string is rejected. -/
def exampleParse (uri : String) : Except GoError URL :=
  if uri = "https://example.com/api" then
    .ok (plainURL "https" "example.com" "/api")
  else if uri = "https://example.com/api/" then
    .ok (plainURL "https" "example.com" "/api/")
  else
    .error (errorsNew "parse: unknown endpoint")

/-- The text of a URL that has a host and no opaque part, user or escaped
path, as `(*url.URL).String` prints it. -/
def plainString (u : URL) : String :=
  (if u.Scheme = "" then "" else u.Scheme ++ ":")
    ++ (if u.Scheme ≠ "" ∨ u.Host ≠ "" then "//" ++ u.Host else "")
    ++ u.Path
    ++ (if u.ForceQuery ∨ u.RawQuery ≠ "" then "?" ++ u.RawQuery else "")
    ++ (if u.Fragment = "" then "" else "#" ++ u.Fragment)

/-- The collaborators of `New` on the two example endpoints.  The SDK client
is represented by the address it was given. -/
def exampleNewEnv : NewEnv String where
  urlParse := exampleParse
  urlString := plainString
  newClientWithHTTP := fun addr => addr

/-! ## Lemmas on the helpers -/

theorem stringsHasSuffix_append_self (s t : String) :
    stringsHasSuffix (s ++ t) t = true := by
  unfold stringsHasSuffix
  rw [String.data_append, List.isSuffixOf_iff_suffix]
  exact List.suffix_append _ _

theorem normalizeBase_path (base : URL) :
    (normalizeBase base).Path =
      if stringsHasSuffix base.Path "/" then base.Path else base.Path ++ "/" := by
  unfold normalizeBase
  cases h : stringsHasSuffix base.Path "/" <;> simp

theorem normalizeBase_hasSuffix (base : URL) :
    stringsHasSuffix (normalizeBase base).Path "/" = true := by
  rw [normalizeBase_path]
  cases h : stringsHasSuffix base.Path "/"
  · simpa using stringsHasSuffix_append_self base.Path "/"
  · simpa using h

theorem normalizeBase_of_hasSuffix (base : URL)
    (h : stringsHasSuffix base.Path "/" = true) : normalizeBase base = base := by
  unfold normalizeBase
  simp [h]

theorem ioCopyLoop_no_error {W : Type}
    (write : W → Bytes → W × Nat × Option GoError) (chunks : List Bytes) :
    ∀ (w : W) (er : Option GoError), (ioCopyLoop write w chunks er).err = none →
      er = none ∧ (ioCopyLoop write w chunks er).written = chunks.flatten := by
  induction chunks with
  | nil =>
    intro w er h
    simpa [ioCopyLoop] using h
  | cons buf rest ih =>
    intro w er h
    unfold ioCopyLoop at h ⊢
    by_cases hlen : buf.length > 0
    · simp only [hlen, if_true] at h ⊢
      rcases hw : write w buf with ⟨w1, nw, ew⟩
      simp only [hw] at h ⊢
      by_cases hbad : buf.length < nw
      · cases ew <;> simp [hbad] at h
      · cases ew with
        | some e => simp [hbad] at h
        | none =>
          by_cases hne : buf.length = nw
          · subst hne
            simp at h ⊢
            exact ih w1 er h
          · simp [hbad, hne] at h
    · simp only [hlen, if_false] at h ⊢
      have hnil : buf = [] := by
        cases buf with
        | nil => rfl
        | cons a t => simp at hlen
      obtain ⟨h1, h2⟩ := ih w er h
      exact ⟨h1, by rw [h2, hnil, List.flatten_cons, List.nil_append]⟩

theorem buildRequest_events {C V W D : Type} (env : Env C V W D)
    (method path : String) (input : Option V) :
    ∀ e ∈ (buildRequest env method path input).2, e = Event.encode := by
  cases input <;> simp [buildRequest]

theorem afterDo_events {C V W D : Type} (env : Env C V W D) (res : Response)
    (out : Out W D) :
    ∀ e ∈ (afterDo env res out).trace, e = Event.decode ∨ ∃ b, e = Event.copy b := by
  unfold afterDo
  by_cases hst : res.Status > 300
  · simp [hst]
  · cases out <;> simp [hst]

theorem wrapper_do_ok {C V W D : Type} (env : Env C V W D) (ctx : C)
    (method path : String) (input : Option V) (out : Out W D) (res : Response)
    (h : env.clientDo ctx (buildRequest env method path input).1 = .ok res) :
    wrapper_do env ctx method path input out =
      { afterDo env res out with
        trace := (buildRequest env method path input).2
          ++ [Event.clientDo (buildRequest env method path input).1]
          ++ (afterDo env res out).trace ++ [Event.close] } := by
  simp only [wrapper_do, h]

theorem wrapper_do_error {C V W D : Type} (env : Env C V W D) (ctx : C)
    (method path : String) (input : Option V) (out : Out W D) (err : GoError)
    (h : env.clientDo ctx (buildRequest env method path input).1 = .error err) :
    wrapper_do env ctx method path input out =
      { res := none, err := some err, out := out,
        trace := (buildRequest env method path input).2
          ++ [Event.clientDo (buildRequest env method path input).1] } := by
  simp only [wrapper_do, h]

theorem requests_of_events (l : List Event)
    (h : ∀ e ∈ l, e = Event.encode ∨ e = Event.decode ∨ e = Event.close
      ∨ ∃ b, e = Event.copy b) :
    l.filterMap Event.request? = [] := by
  rw [List.filterMap_eq_nil_iff]
  intro e he
  rcases h e he with h | h | h | ⟨b, h⟩ <;> subst h <;> rfl

theorem wrapper_do_requests {C V W D : Type} (env : Env C V W D) (ctx : C)
    (method path : String) (input : Option V) (out : Out W D) :
    (wrapper_do env ctx method path input out).requests
      = [(buildRequest env method path input).1] := by
  have hb : (buildRequest env method path input).2.filterMap Event.request? = [] :=
    requests_of_events _ fun e he =>
      Or.inl (buildRequest_events env method path input e he)
  cases h : env.clientDo ctx (buildRequest env method path input).1 with
  | error err =>
    rw [wrapper_do_error env ctx method path input out err h]
    simp [DoResult.requests, List.filterMap_append, hb, Event.request?]
  | ok res =>
    have ha : (afterDo env res out).trace.filterMap Event.request? = [] :=
      requests_of_events _ fun e he =>
        (afterDo_events env res out e he).elim (fun h => Or.inr (Or.inl h))
          (fun h => Or.inr (Or.inr (Or.inr h)))
    rw [wrapper_do_ok env ctx method path input out res h]
    simp [DoResult.requests, List.filterMap_append, hb, ha, Event.request?]

theorem req_of_requests {C V W D : Type} (env : Env C V W D) (ctx : C)
    (method path : String) (input : Option V) (out : Out W D) (req : Request)
    (hreq : (wrapper_do env ctx method path input out).requests = [req]) :
    (buildRequest env method path input).1 = req := by
  rw [wrapper_do_requests] at hreq
  simpa using hreq

theorem afterDo_status_error {C V W D : Type} (env : Env C V W D)
    (res : Response) (out : Out W D) (hst : res.Status > 300) :
    afterDo env res out =
      { res := some res, err := some (errorsNew (env.statusText res.Status)),
        out := out, trace := [] } := by
  simp [afterDo, hst]

theorem afterDo_value {C V W D : Type} (env : Env C V W D)
    (res : Response) (d : D) (hst : res.Status ≤ 300) :
    afterDo env res (Out.value d : Out W D) =
      { res := some res, err := (env.jsonDecode res.Body d).2,
        out := Out.value (env.jsonDecode res.Body d).1,
        trace := [Event.decode] } := by
  simp [afterDo, not_lt.mpr hst]

theorem afterDo_writer {C V W D : Type} (env : Env C V W D)
    (res : Response) (w : W) (hst : res.Status ≤ 300) :
    afterDo env res (Out.writer w : Out W D) =
      { res := some res, err := none,
        out := Out.writer (ioCopy env.write w res.Body).w,
        trace := [Event.copy (ioCopy env.write w res.Body).written] } := by
  simp [afterDo, not_lt.mpr hst]

theorem buildRequest_no_close {C V W D : Type} (env : Env C V W D)
    (method path : String) (input : Option V) :
    ∀ e ∈ (buildRequest env method path input).2, e ≠ Event.close := by
  intro e he
  rw [buildRequest_events env method path input e he]
  decide

theorem afterDo_no_close {C V W D : Type} (env : Env C V W D) (res : Response)
    (out : Out W D) : ∀ e ∈ (afterDo env res out).trace, e ≠ Event.close := by
  intro e he
  rcases afterDo_events env res out e he with h | ⟨b, h⟩ <;> subst h <;> simp

/-! ## Theorems on `New` -/

/-- C6: when `uri` parses, `New` succeeds and the base URL of the client is the
parsed URL with its path kept if it ends in a slash and extended by one slash
otherwise; every other component is the parsed one.  The resulting path ends
in a slash, so the step is idempotent: constructing again, with any parser,
from any string that parses to the resulting base URL gives the same base
URL. -/
theorem C6_new_base_url {G : Type} (env : NewEnv G) (uri : String) (base : URL)
    (hparse : env.urlParse uri = .ok base) :
    ∃ c : Client G, New env uri = (some c, none)
      ∧ c.BaseURL.Path =
          (if stringsHasSuffix base.Path "/" then base.Path else base.Path ++ "/")
      ∧ c.BaseURL.Scheme = base.Scheme ∧ c.BaseURL.Opaque = base.Opaque
      ∧ c.BaseURL.User = base.User ∧ c.BaseURL.Host = base.Host
      ∧ c.BaseURL.RawPath = base.RawPath
      ∧ c.BaseURL.ForceQuery = base.ForceQuery
      ∧ c.BaseURL.RawQuery = base.RawQuery
      ∧ c.BaseURL.Fragment = base.Fragment
      ∧ c.BaseURL.RawFragment = base.RawFragment
      ∧ stringsHasSuffix c.BaseURL.Path "/" = true
      ∧ normalizeBase c.BaseURL = c.BaseURL
      ∧ ∀ (env2 : NewEnv G) (uri2 : String),
          env2.urlParse uri2 = .ok c.BaseURL →
            ∃ c2 : Client G, New env2 uri2 = (some c2, none)
              ∧ c2.BaseURL = c.BaseURL := by
  simp only [New, hparse]
  refine ⟨_, rfl, normalizeBase_path base, ?_⟩
  have hfields : ∀ u : URL, (normalizeBase u).Scheme = u.Scheme
      ∧ (normalizeBase u).Opaque = u.Opaque ∧ (normalizeBase u).User = u.User
      ∧ (normalizeBase u).Host = u.Host ∧ (normalizeBase u).RawPath = u.RawPath
      ∧ (normalizeBase u).ForceQuery = u.ForceQuery
      ∧ (normalizeBase u).RawQuery = u.RawQuery
      ∧ (normalizeBase u).Fragment = u.Fragment
      ∧ (normalizeBase u).RawFragment = u.RawFragment := by
    intro u
    unfold normalizeBase
    cases stringsHasSuffix u.Path "/" <;> simp
  obtain ⟨h1, h2, h3, h4, h5, h6, h7, h8, h9⟩ := hfields base
  have hidem : normalizeBase (normalizeBase base) = normalizeBase base :=
    normalizeBase_of_hasSuffix _ (normalizeBase_hasSuffix base)
  refine ⟨h1, h2, h3, h4, h5, h6, h7, h8, h9, normalizeBase_hasSuffix base,
    hidem, ?_⟩
  intro env2 uri2 h2parse
  simp only [New, h2parse]
  refine ⟨_, rfl, ?_⟩
  exact hidem

/-- C6, scenario: the endpoint `https://example.com/api` gives a client whose
base URL has the path `/api/` and prints as `https://example.com/api/`, and
constructing again from that text gives the same base URL. -/
theorem C6_new_base_url_witness :
    exampleParse "https://example.com/api"
        = .ok (plainURL "https" "example.com" "/api")
      ∧ ∃ c : Client String,
          New exampleNewEnv "https://example.com/api" = (some c, none)
            ∧ c.BaseURL = plainURL "https" "example.com" "/api/"
            ∧ plainString c.BaseURL = "https://example.com/api/"
            ∧ ∃ c2 : Client String,
                New exampleNewEnv (plainString c.BaseURL) = (some c2, none)
                  ∧ c2.BaseURL = c.BaseURL := by
  obtain ⟨c, hc, hpath, hs, ho, hu, hh, hr, hf, hq, hfr, hrf, -, -, hagain⟩ :=
    C6_new_base_url exampleNewEnv "https://example.com/api"
      (plainURL "https" "example.com" "/api") rfl
  have hbase : c.BaseURL = plainURL "https" "example.com" "/api/" := by
    have hp : c.BaseURL.Path = "/api/" := by rw [hpath]; decide
    cases hb : c.BaseURL
    rw [hb] at hp hs ho hu hh hr hf hq hfr hrf
    simp only [plainURL] at *
    subst hp hs ho hu hh hr hf hq hfr hrf
    rfl
  have hstr : plainString c.BaseURL = "https://example.com/api/" := by
    rw [hbase]; decide
  refine ⟨rfl, c, hc, hbase, hstr, ?_⟩
  apply hagain exampleNewEnv
  rw [hstr, hbase]
  rfl

/-- C7: `New` returns an error exactly when `url.Parse` rejects `uri`, and then
it is the parser's error and the client is nil; without an error the client is
not nil. -/
theorem C7_new_error_iff {G : Type} (env : NewEnv G) (uri : String) :
    ((New env uri).2.isSome ↔ ∃ e, env.urlParse uri = .error e)
      ∧ (∀ e, env.urlParse uri = .error e → New env uri = (none, some e))
      ∧ ((New env uri).2.isSome → (New env uri).1 = none)
      ∧ ((New env uri).2 = none → (New env uri).1.isSome) := by
  cases h : env.urlParse uri with
  | error e => simp [New, h]
  | ok base => simp [New, h]

/-- C7, scenario: an endpoint the parser rejects gives no client and the
parser's error; an endpoint it accepts gives a client and no error. -/
theorem C7_new_error_iff_witness :
    ((New exampleNewEnv "::bad::").2.isSome
        ∧ (New exampleNewEnv "::bad::").1 = none)
      ∧ ((New exampleNewEnv "https://example.com/api").2 = none
        ∧ (New exampleNewEnv "https://example.com/api").1.isSome) := by
  have hbad := C7_new_error_iff exampleNewEnv "::bad::"
  have hgood := C7_new_error_iff exampleNewEnv "https://example.com/api"
  have e1 : (New exampleNewEnv "::bad::").2.isSome :=
    hbad.1.mpr ⟨errorsNew "parse: unknown endpoint", rfl⟩
  have e2 : (New exampleNewEnv "https://example.com/api").2 = none := by
    cases h : (New exampleNewEnv "https://example.com/api").2 with
    | none => rfl
    | some e =>
      have hs : (New exampleNewEnv "https://example.com/api").2.isSome := by
        rw [h]; rfl
      obtain ⟨e0, he0⟩ := hgood.1.mp hs
      simp [exampleNewEnv, exampleParse] at he0
  exact ⟨⟨e1, hbad.2.2.1 e1⟩, e2, hgood.2.2.2 e2⟩

/-! ## Theorems on `wrapper.do` -/

/-- C1: when the transport answers the request of `do` with a response whose
status is above 300, `do` returns that response and the error made of
`http.StatusText` of the status; the output destination is what it was, and no
event of the call reads the response body (no copy, no decode). -/
theorem C1_status_error {C V W D : Type} (env : Env C V W D) (ctx : C)
    (method path : String) (input : Option V) (out : Out W D) (req : Request)
    (res : Response)
    (hreq : (wrapper_do env ctx method path input out).requests = [req])
    (hdo : env.clientDo ctx req = .ok res)
    (hst : res.Status > 300) :
    (wrapper_do env ctx method path input out).res = some res
      ∧ (wrapper_do env ctx method path input out).err
          = some (errorsNew (env.statusText res.Status))
      ∧ (wrapper_do env ctx method path input out).out = out
      ∧ ∀ e ∈ (wrapper_do env ctx method path input out).trace,
          e.readsBody = false := by
  have hb := req_of_requests env ctx method path input out req hreq
  subst hb
  rw [wrapper_do_ok env ctx method path input out res hdo,
    afterDo_status_error env res out hst]
  refine ⟨rfl, rfl, rfl, ?_⟩
  intro e he
  simp only [List.append_nil, List.mem_append, List.mem_singleton] at he
  rcases he with (he | he) | he
  · rw [buildRequest_events env method path input e he]; rfl
  · rw [he]; rfl
  · rw [he]; rfl

/-- C1, scenario: status 404 with the body `{"message":"not found"}` gives the
error text `Not Found` and a response whose status is 404; the typed
destination is untouched. -/
theorem C1_status_error_witness :
    (wrapper_do (replyEnv (.ok (plainResponse 404 notFoundBody))) ()
        "GET" "api/v1/repos/o/r" none (Out.value [])).err
        = some (errorsNew "Not Found")
      ∧ (wrapper_do (replyEnv (.ok (plainResponse 404 notFoundBody))) ()
          "GET" "api/v1/repos/o/r" none (Out.value [])).res
        = some (plainResponse 404 notFoundBody)
      ∧ (plainResponse 404 notFoundBody).Status = 404
      ∧ (wrapper_do (replyEnv (.ok (plainResponse 404 notFoundBody))) ()
          "GET" "api/v1/repos/o/r" none (Out.value [])).out = Out.value [] := by
  have h := C1_status_error (replyEnv (.ok (plainResponse 404 notFoundBody))) ()
    "GET" "api/v1/repos/o/r" none (Out.value [])
    { Method := "GET", Path := "api/v1/repos/o/r", Header := none, Body := none }
    (plainResponse 404 notFoundBody) rfl rfl (by decide)
  exact ⟨h.2.1, h.1, rfl, h.2.2.1⟩

/-- C2, counterexample: status 300 lies in the range 300 to 399, and `do`
returns a nil error for it. -/
theorem C2_status_300_is_no_error :
    (300 : Int) ≤ 300 ∧ (300 : Int) ≤ 399
      ∧ (wrapper_do (replyEnv (.ok (plainResponse 300 []))) ()
          "GET" "api/v1/version" none (Out.nil : Out Sink Bytes)).err = none
      ∧ (wrapper_do (replyEnv (.ok (plainResponse 300 []))) ()
          "GET" "api/v1/version" none (Out.nil : Out Sink Bytes)).res
          = some (plainResponse 300 []) := by
  exact ⟨by decide, by decide, rfl, rfl⟩

/-- C2, amended: for every status `s` with `300 < s` and `s ≤ 399` that the
transport returns, `do` returns a non-nil error, the one made of
`http.StatusText s`. -/
theorem C2_redirect_above_300_error {C V W D : Type} (env : Env C V W D)
    (ctx : C) (method path : String) (input : Option V) (out : Out W D)
    (req : Request) (res : Response)
    (hreq : (wrapper_do env ctx method path input out).requests = [req])
    (hdo : env.clientDo ctx req = .ok res)
    (hlo : 300 < res.Status) (_hhi : res.Status ≤ 399) :
    (wrapper_do env ctx method path input out).err ≠ none
      ∧ (wrapper_do env ctx method path input out).err
          = some (errorsNew (env.statusText res.Status)) := by
  have hb := req_of_requests env ctx method path input out req hreq
  subst hb
  rw [wrapper_do_ok env ctx method path input out res hdo,
    afterDo_status_error env res out hlo]
  exact ⟨by simp, rfl⟩

/-- C2, scenario: a call that receives status 301 returns an error, with the
text `Moved Permanently`. -/
theorem C2_redirect_above_300_error_witness :
    (wrapper_do (replyEnv (.ok (plainResponse 301 []))) ()
        "GET" "api/v1/version" none (Out.nil : Out Sink Bytes)).err ≠ none
      ∧ (wrapper_do (replyEnv (.ok (plainResponse 301 []))) ()
          "GET" "api/v1/version" none (Out.nil : Out Sink Bytes)).err
        = some (errorsNew "Moved Permanently") := by
  exact C2_redirect_above_300_error (replyEnv (.ok (plainResponse 301 []))) ()
    "GET" "api/v1/version" none Out.nil
    { Method := "GET", Path := "api/v1/version", Header := none, Body := none }
    (plainResponse 301 []) rfl rfl (by decide) (by decide)

/-- C3: when the transport answers with a status of at most 300 and the output
destination is a typed value (not nil, not a writer), the destination
afterwards is what the JSON decoder makes of the response body, `do` returns
the response, and its error is the decoder's error, unchanged: nil exactly
when decoding succeeds. -/
theorem C3_typed_decode {C V W D : Type} (env : Env C V W D) (ctx : C)
    (method path : String) (input : Option V) (d : D) (req : Request)
    (res : Response)
    (hreq : (wrapper_do env ctx method path input (Out.value d : Out W D)).requests
      = [req])
    (hdo : env.clientDo ctx req = .ok res)
    (hst : res.Status ≤ 300) :
    (wrapper_do env ctx method path input (Out.value d : Out W D)).out
        = Out.value (env.jsonDecode res.Body d).1
      ∧ (wrapper_do env ctx method path input (Out.value d : Out W D)).res
        = some res
      ∧ (wrapper_do env ctx method path input (Out.value d : Out W D)).err
        = (env.jsonDecode res.Body d).2
      ∧ ((wrapper_do env ctx method path input (Out.value d : Out W D)).err = none
        ↔ (env.jsonDecode res.Body d).2 = none) := by
  have hb := req_of_requests env ctx method path input _ req hreq
  subst hb
  rw [wrapper_do_ok env ctx method path input _ res hdo,
    afterDo_value env res d hst]
  exact ⟨rfl, rfl, rfl, Iff.rfl⟩

/-- C3, scenario: status 200 with the body `{"id":1}` leaves the decoded body
in the destination and returns no error. -/
theorem C3_typed_decode_witness :
    (wrapper_do (replyEnv (.ok (plainResponse 200 idBody))) ()
        "GET" "api/v1/repos/o/r" none (Out.value [])).out = Out.value idBody
      ∧ (wrapper_do (replyEnv (.ok (plainResponse 200 idBody))) ()
          "GET" "api/v1/repos/o/r" none (Out.value [])).res
        = some (plainResponse 200 idBody)
      ∧ (wrapper_do (replyEnv (.ok (plainResponse 200 idBody))) ()
          "GET" "api/v1/repos/o/r" none (Out.value [])).err = none := by
  have h := C3_typed_decode (replyEnv (.ok (plainResponse 200 idBody))) ()
    "GET" "api/v1/repos/o/r" none ([] : Bytes)
    { Method := "GET", Path := "api/v1/repos/o/r", Header := none, Body := none }
    (plainResponse 200 idBody) rfl rfl (by decide)
  exact ⟨h.1, h.2.1, h.2.2.1⟩

/-- C4, counterexample: with status 200 and a sink that has room for three
bytes, the sink holds three bytes of the eight of the body when `do`
returns. -/
theorem C4_sink_without_room :
    (wrapper_do (replyEnv (.ok (plainResponse 200 notJsonBody))) ()
        "GET" "raw/file" none
        (Out.writer { data := [], room := some 3 } : Out Sink Bytes)).out
        = Out.writer { data := [110, 111, 116], room := some 0 }
      ∧ (wrapper_do (replyEnv (.ok (plainResponse 200 notJsonBody))) ()
          "GET" "raw/file" none
          (Out.writer { data := [], room := some 3 } : Out Sink Bytes)).trace
        = [ Event.clientDo
              { Method := "GET", Path := "raw/file", Header := none, Body := none },
            Event.copy [110, 111, 116], Event.close ]
      ∧ ([110, 111, 116] : Bytes) ≠ (plainResponse 200 notJsonBody).Body.bytes := by
  exact ⟨rfl, rfl, by decide⟩

/-- C4, amended: when the transport answers with a status of at most 300, the
output destination is a writer and the copy meets no read or write error, the
bytes the sink took are exactly the bytes of the response body, in order; the
only event that touches the body is that copy (no decode), and `do` returns
the response with a nil error. -/
theorem C4_raw_copy {C V W D : Type} (env : Env C V W D) (ctx : C)
    (method path : String) (input : Option V) (w : W) (req : Request)
    (res : Response)
    (hreq : (wrapper_do env ctx method path input (Out.writer w : Out W D)).requests
      = [req])
    (hdo : env.clientDo ctx req = .ok res)
    (hst : res.Status ≤ 300)
    (hcopy : (ioCopy env.write w res.Body).err = none) :
    (ioCopy env.write w res.Body).written = res.Body.bytes
      ∧ (wrapper_do env ctx method path input (Out.writer w : Out W D)).out
        = Out.writer (ioCopy env.write w res.Body).w
      ∧ (∀ e ∈ (wrapper_do env ctx method path input (Out.writer w : Out W D)).trace,
          e.readsBody = true → e = Event.copy res.Body.bytes)
      ∧ Event.copy res.Body.bytes
          ∈ (wrapper_do env ctx method path input (Out.writer w : Out W D)).trace
      ∧ (wrapper_do env ctx method path input (Out.writer w : Out W D)).res
        = some res
      ∧ (wrapper_do env ctx method path input (Out.writer w : Out W D)).err
        = none := by
  have hb := req_of_requests env ctx method path input _ req hreq
  subst hb
  have hw : (ioCopy env.write w res.Body).written = res.Body.bytes :=
    (ioCopyLoop_no_error env.write res.Body.chunks w res.Body.err hcopy).2
  rw [wrapper_do_ok env ctx method path input _ res hdo,
    afterDo_writer env res w hst, hw]
  refine ⟨rfl, rfl, ?_, by simp, rfl, rfl⟩
  intro e he hread
  simp only [List.mem_append, List.mem_singleton] at he
  rcases he with ((he | he) | he) | he
  · rw [buildRequest_events env method path input e he] at hread
    exact absurd hread (by decide)
  · rw [he] at hread
    exact absurd hread (by simp [Event.readsBody])
  · exact he
  · rw [he] at hread
    exact absurd hread (by decide)

/-- C4, scenario: with status 200 and a sink without bound that already holds
one byte, a body that is not JSON is appended to the sink as it is, and `do`
returns no error. -/
theorem C4_raw_copy_witness :
    (wrapper_do (replyEnv (.ok (plainResponse 200 notJsonBody))) ()
        "GET" "raw/file" none
        (Out.writer { data := [7], room := none } : Out Sink Bytes)).out
        = Out.writer { data := 7 :: notJsonBody, room := none }
      ∧ Event.copy notJsonBody
          ∈ (wrapper_do (replyEnv (.ok (plainResponse 200 notJsonBody))) ()
              "GET" "raw/file" none
              (Out.writer { data := [7], room := none } : Out Sink Bytes)).trace
      ∧ (wrapper_do (replyEnv (.ok (plainResponse 200 notJsonBody))) ()
          "GET" "raw/file" none
          (Out.writer { data := [7], room := none } : Out Sink Bytes)).err
        = none := by
  have h := C4_raw_copy (replyEnv (.ok (plainResponse 200 notJsonBody))) ()
    "GET" "raw/file" none ({ data := [7], room := none } : Sink)
    { Method := "GET", Path := "raw/file", Header := none, Body := none }
    (plainResponse 200 notJsonBody) rfl rfl (by decide) rfl
  exact ⟨h.2.1, h.2.2.2.1, h.2.2.2.2.2⟩

/-- C5, counterexample: the encoder rejects the input value and leaves its
buffer empty, so the value has no JSON encoding; the request that `do` hands to
the transport still carries the header `Content-Type: application/json`, and
its body is the empty buffer. -/
theorem C5_rejected_input_empty_body :
    (rejectEnv (.ok (plainResponse 201 []))).jsonEncode idBody
        = ([], some (errorsNew "json: unsupported value"))
      ∧ (wrapper_do (rejectEnv (.ok (plainResponse 201 []))) ()
          "POST" "api/v1/user/repos" (some idBody)
          (Out.value [] : Out Sink Bytes)).requests
        = [ { Method := "POST", Path := "api/v1/user/repos",
              Header := some [("Content-Type", ["application/json"])],
              Body := some [] } ] := by
  exact ⟨rfl, rfl⟩

/-- C5, amended: when the input value is nil or the JSON encoder accepts it,
`do` hands the transport one request; it carries the caller's method and path;
with an input value its header map is exactly `Content-Type: application/json`
and its body is the encoding that the encoder returned for the value without
error; without an input value it has no header map and no body.  So for such
input the request has that header exactly when an input value was supplied. -/
theorem C5_request_built {C V W D : Type} (env : Env C V W D) (ctx : C)
    (method path : String) (input : Option V) (out : Out W D)
    (henc : ∀ v, input = some v → (env.jsonEncode v).2 = none) :
    ∃ req : Request,
      (wrapper_do env ctx method path input out).requests = [req]
        ∧ req.Method = method ∧ req.Path = path
        ∧ (∀ v, input = some v →
            req.Header = some [("Content-Type", ["application/json"])]
              ∧ ∃ enc : Bytes, env.jsonEncode v = (enc, none)
                  ∧ req.Body = some enc)
        ∧ (input = none → req.Header = none ∧ req.Body = none)
        ∧ (req.Header = some [("Content-Type", ["application/json"])]
            ↔ input.isSome = true) := by
  refine ⟨_, wrapper_do_requests env ctx method path input out, ?_⟩
  cases input with
  | none => simp [buildRequest]
  | some v =>
    have hv := henc v rfl
    refine ⟨rfl, rfl, ?_, by simp, by simp [buildRequest]⟩
    intro v2 hv2
    cases hv2
    refine ⟨rfl, (env.jsonEncode v).1, ?_, rfl⟩
    rw [← hv]

/-- C5, scenario: a POST with an input value that the encoder accepts sends
the encoded value under the header `Content-Type: application/json`; a GET
without input sends neither. -/
theorem C5_request_built_witness :
    ((replyEnv (.ok (plainResponse 201 idBody))).jsonEncode idBody).2 = none
      ∧ (wrapper_do (replyEnv (.ok (plainResponse 201 idBody))) ()
        "POST" "api/v1/user/repos" (some idBody)
        (Out.nil : Out Sink Bytes)).requests
        = [ { Method := "POST", Path := "api/v1/user/repos",
              Header := some [("Content-Type", ["application/json"])],
              Body := some (idBody ++ [10]) } ]
      ∧ (wrapper_do (replyEnv (.ok (plainResponse 200 idBody))) ()
          "GET" "api/v1/user" none (Out.nil : Out Sink Bytes)).requests
        = [ { Method := "GET", Path := "api/v1/user", Header := none,
              Body := none } ] := by
  obtain ⟨r1, h1, hm1, hp1, hs1, -, -⟩ :=
    C5_request_built (replyEnv (.ok (plainResponse 201 idBody))) ()
      "POST" "api/v1/user/repos" (some idBody) (Out.nil : Out Sink Bytes)
      (fun _ _ => rfl)
  obtain ⟨r2, h2, hm2, hp2, -, hn2, -⟩ :=
    C5_request_built (replyEnv (.ok (plainResponse 200 idBody))) ()
      "GET" "api/v1/user" none (Out.nil : Out Sink Bytes)
      (fun _ _ => rfl)
  obtain ⟨hh1, enc, henc, hb1⟩ := hs1 idBody rfl
  have he : enc = idBody ++ [10] := by
    have := congrArg Prod.fst henc
    exact this.symm
  subst he
  obtain ⟨hh2, hb2⟩ := hn2 rfl
  refine ⟨rfl, ?_, ?_⟩
  · rw [h1]
    cases r1
    simp only at hm1 hp1 hh1 hb1
    subst hm1 hp1 hh1 hb1
    rfl
  · rw [h2]
    cases r2
    simp only at hm2 hp2 hh2 hb2
    subst hm2 hp2 hh2 hb2
    rfl

/-- C8, failing inputs: three calls in which a step of `do` fails and `do`
returns a nil error.  (1) The sink has room for three of the eight bytes of
the body, so `io.Copy` reports the write error.  (2) Reading the body fails
after three bytes, so `io.Copy` reports the read error.  (3) The encoder
rejects the input value; the request is sent with an empty body. -/
theorem C8_dropped_errors :
    ((ioCopy Sink.write { data := [], room := some 3 }
          (plainResponse 200 notJsonBody).Body).err
        = some (errorsNew "sink: no room left")
      ∧ (wrapper_do (replyEnv (.ok (plainResponse 200 notJsonBody))) ()
          "GET" "raw/file" none
          (Out.writer { data := [], room := some 3 } : Out Sink Bytes)).err
        = none)
    ∧ ((ioCopy Sink.write { data := [], room := none } cutResponse.Body).err
        = some (errorsNew "unexpected EOF")
      ∧ (wrapper_do (replyEnv (.ok cutResponse)) ()
          "GET" "raw/file" none
          (Out.writer { data := [], room := none } : Out Sink Bytes)).err
        = none)
    ∧ (((rejectEnv (.ok (plainResponse 200 []))).jsonEncode idBody).2
        = some (errorsNew "json: unsupported value")
      ∧ (wrapper_do (rejectEnv (.ok (plainResponse 200 []))) ()
          "POST" "api/v1/user/repos" (some idBody)
          (Out.nil : Out Sink Bytes)).err = none
      ∧ (wrapper_do (rejectEnv (.ok (plainResponse 200 []))) ()
          "POST" "api/v1/user/repos" (some idBody)
          (Out.nil : Out Sink Bytes)).requests
        = [ { Method := "POST", Path := "api/v1/user/repos",
              Header := some [("Content-Type", ["application/json"])],
              Body := some [] } ]) := by
  exact ⟨⟨rfl, rfl⟩, ⟨rfl, rfl⟩, ⟨rfl, rfl, rfl⟩⟩

/-- C9: when the transport answers the request of `do` with a response, the
trace of the call ends with the one `close` event of the call, so the body is
closed exactly once, on every path, and after every read of the body; when the
transport fails, the body is never closed.  The close counter of a call is 1 in
the first case and 0 in the second. -/
theorem C9_close_once {C V W D : Type} (env : Env C V W D) (ctx : C)
    (method path : String) (input : Option V) (out : Out W D) (req : Request)
    (hreq : (wrapper_do env ctx method path input out).requests = [req]) :
    (∀ res, env.clientDo ctx req = .ok res →
        (wrapper_do env ctx method path input out).closeCount = 1
          ∧ ∃ pre, (wrapper_do env ctx method path input out).trace
              = pre ++ [Event.close] ∧ Event.close ∉ pre)
      ∧ (∀ err, env.clientDo ctx req = .error err →
          (wrapper_do env ctx method path input out).closeCount = 0
            ∧ Event.close ∉ (wrapper_do env ctx method path input out).trace) := by
  have hb := req_of_requests env ctx method path input out req hreq
  subst hb
  have hnb := buildRequest_no_close env method path input
  constructor
  · intro res hdo
    have hna := afterDo_no_close env res out
    have hpre : Event.close ∉ (buildRequest env method path input).2
        ++ [Event.clientDo (buildRequest env method path input).1]
        ++ (afterDo env res out).trace := by
      intro hmem
      simp only [List.mem_append, List.mem_singleton] at hmem
      rcases hmem with (hmem | hmem) | hmem
      · exact hnb _ hmem rfl
      · exact absurd hmem (by simp)
      · exact hna _ hmem rfl
    rw [wrapper_do_ok env ctx method path input out res hdo]
    refine ⟨?_, _, rfl, hpre⟩
    simp only [DoResult.closeCount]
    rw [List.count_append, List.count_eq_zero.mpr hpre]
    rfl
  · intro err hdo
    have hpre : Event.close ∉ (buildRequest env method path input).2
        ++ [Event.clientDo (buildRequest env method path input).1] := by
      intro hmem
      simp only [List.mem_append, List.mem_singleton] at hmem
      rcases hmem with hmem | hmem
      · exact hnb _ hmem rfl
      · exact absurd hmem (by simp)
    rw [wrapper_do_error env ctx method path input out err hdo]
    exact ⟨List.count_eq_zero.mpr hpre, hpre⟩

/-- C9, scenario: a decoded call closes the body once, after the decode; a call
whose transport fails closes nothing. -/
theorem C9_close_once_witness :
    ((wrapper_do (replyEnv (.ok (plainResponse 200 idBody))) ()
        "GET" "api/v1/user" none (Out.value [])).closeCount = 1
      ∧ (wrapper_do (replyEnv (.ok (plainResponse 200 idBody))) ()
          "GET" "api/v1/user" none (Out.value [])).trace
        = [ Event.clientDo
              { Method := "GET", Path := "api/v1/user", Header := none,
                Body := none },
            Event.decode, Event.close ])
      ∧ (wrapper_do (replyEnv (.error (errorsNew "connection refused"))) ()
          "GET" "api/v1/user" none (Out.value [])).closeCount = 0 := by
  have h1 := C9_close_once (replyEnv (.ok (plainResponse 200 idBody))) ()
    "GET" "api/v1/user" none (Out.value [])
    { Method := "GET", Path := "api/v1/user", Header := none, Body := none } rfl
  have h2 := C9_close_once
    (replyEnv (.error (errorsNew "connection refused"))) ()
    "GET" "api/v1/user" none (Out.value [])
    { Method := "GET", Path := "api/v1/user", Header := none, Body := none } rfl
  exact ⟨⟨(h1.1 _ rfl).1, rfl⟩, (h2.2 _ rfl).1⟩

/-- C10: every call of `do` hands exactly one request to the transport; when
the transport fails on it, `do` returns a nil response and the transport's
error, the output destination is what it was, and the trace ends with the
transport call: nothing is copied, decoded or closed. -/
theorem C10_transport_once {C V W D : Type} (env : Env C V W D) (ctx : C)
    (method path : String) (input : Option V) (out : Out W D) :
    (wrapper_do env ctx method path input out).requests.length = 1
      ∧ ∀ req err, (wrapper_do env ctx method path input out).requests = [req] →
          env.clientDo ctx req = .error err →
            (wrapper_do env ctx method path input out).res = none
              ∧ (wrapper_do env ctx method path input out).err = some err
              ∧ (wrapper_do env ctx method path input out).out = out
              ∧ (∀ e ∈ (wrapper_do env ctx method path input out).trace,
                  e.readsBody = false ∧ e ≠ Event.close) := by
  refine ⟨by rw [wrapper_do_requests]; rfl, ?_⟩
  intro req err hreq hdo
  have hb := req_of_requests env ctx method path input out req hreq
  subst hb
  rw [wrapper_do_error env ctx method path input out err hdo]
  refine ⟨rfl, rfl, rfl, ?_⟩
  intro e he
  simp only [List.mem_append, List.mem_singleton] at he
  rcases he with he | he
  · rw [buildRequest_events env method path input e he]
    exact ⟨rfl, by decide⟩
  · rw [he]
    exact ⟨rfl, by simp⟩

/-- C10, scenario: a refused connection gives a nil response and the error of
the transport, after one transport call, with the destination untouched. -/
theorem C10_transport_once_witness :
    (wrapper_do (replyEnv (.error (errorsNew "connection refused"))) ()
        "GET" "api/v1/user" none (Out.value idBody)).requests.length = 1
      ∧ (wrapper_do (replyEnv (.error (errorsNew "connection refused"))) ()
          "GET" "api/v1/user" none (Out.value idBody)).res = none
      ∧ (wrapper_do (replyEnv (.error (errorsNew "connection refused"))) ()
          "GET" "api/v1/user" none (Out.value idBody)).err
        = some (errorsNew "connection refused")
      ∧ (wrapper_do (replyEnv (.error (errorsNew "connection refused"))) ()
          "GET" "api/v1/user" none (Out.value idBody)).out
        = Out.value idBody := by
  have h := C10_transport_once
    (replyEnv (.error (errorsNew "connection refused"))) ()
    "GET" "api/v1/user" none (Out.value idBody)
  have h2 := h.2
    { Method := "GET", Path := "api/v1/user", Header := none, Body := none }
    (errorsNew "connection refused") rfl rfl
  exact ⟨h.1, h2.1, h2.2.1, h2.2.2.1⟩

end Gitea
